import Mathlib

/-!
Shallow embedding of the StudBud front-end (Next.js/React) client logic.

Each definition mirrors one function or state update of the source files:
- src/app/management/teachersdashboard/screens/Exam.tsx (teacher exam screen)
- src/app/dashboard/widgets/ExamAndTests.tsx (student exam screen, homework timer)
- src/app/dashboard/widgets/FlashCards.tsx (flashcard decks)
- src/unnamed/part_001 (create-meeting screen)

JavaScript objects used as string-keyed maps are embedded as association
lists in insertion order, matching the enumeration order of JS object keys;
the spread update in the source replaces the value in place when the key
exists and appends otherwise.  Machine numbers are Nat/Int; a JS number that
can be NaN (the result of parseInt) is an Option Int.
-/

/-- JS object spread update: in the source written as
the object literal with three dots prev and a computed key.  If the key is
already present its value is replaced in place, otherwise the pair is
appended at the end (JS key enumeration order). -/
def jsInsert {κ α : Type} [BEq κ] (m : List (κ × α)) (k : κ) (v : α) : List (κ × α) :=
  if m.any (fun p => p.1 == k) then
    m.map (fun p => if p.1 == k then (k, v) else p)
  else
    m ++ [(k, v)]

/-- Numeric value of a decimal digit character. -/
def digitVal (c : Char) : Nat := c.toNat - 48

/-- Value of a most-significant-first list of decimal digit characters. -/
def decodeDigits (l : List Char) : Nat := l.foldl (fun a c => a * 10 + digitVal c) 0

/-- Decimal digits of a natural number, most significant first
(structural counterpart of the fuel-based Nat.toDigitsCore from core). -/
def natToDigits (n : Nat) : List Char :=
  if h : n / 10 = 0 then [Nat.digitChar (n % 10)]
  else natToDigits (n / 10) ++ [Nat.digitChar (n % 10)]
termination_by n
decreasing_by
  exact Nat.div_lt_self (Nat.pos_of_ne_zero (fun hn => h (by simp [hn]))) (by norm_num)

/-- JS parseInt on a list of characters with leading whitespace removed:
optional sign, then a maximal run of decimal digits; none when that run is
empty (parseInt returns NaN there). -/
def jsParseIntChars (cs : List Char) : Option Int :=
  let core : List Char → Option Nat := fun rest =>
    let ds := rest.takeWhile Char.isDigit
    if ds.isEmpty then none else some (decodeDigits ds)
  match cs with
  | c :: rest =>
    if c = Char.ofNat 45 then (core rest).map (fun n => -(n : Int))
    else if c = Char.ofNat 43 then (core rest).map (fun n => (n : Int))
    else (core cs).map (fun n => (n : Int))
  | [] => none

/-- JS String.prototype.trim: leading and trailing whitespace removed. -/
def jsTrim (s : String) : String :=
  ⟨(((s.data.dropWhile Char.isWhitespace).reverse).dropWhile Char.isWhitespace).reverse⟩

/-- JS parseInt on a string (decimal radix): leading whitespace is
skipped, then the sign and digit run are read. -/
def jsParseInt (s : String) : Option Int :=
  jsParseIntChars (s.data.dropWhile Char.isWhitespace)

-- ## Facts about the digit printer, leading to injectivity of Nat.toString

theorem digitVal_digitChar : ∀ d < 10, digitVal (Nat.digitChar d) = d := by decide

theorem decodeDigits_append_singleton (xs : List Char) (c : Char) :
    decodeDigits (xs ++ [c]) = decodeDigits xs * 10 + digitVal c := by
  simp [decodeDigits, List.foldl_append]

theorem decodeDigits_natToDigits (n : Nat) : decodeDigits (natToDigits n) = n := by
  induction n using Nat.strong_induction_on with
  | _ n ih =>
    unfold natToDigits
    by_cases h : n / 10 = 0
    · rw [dif_pos h]
      have hd : digitVal (Nat.digitChar (n % 10)) = n % 10 :=
        digitVal_digitChar (n % 10) (Nat.mod_lt _ (by norm_num))
      simp only [decodeDigits, List.foldl_cons, List.foldl_nil, Nat.zero_mul, Nat.zero_add, hd]
      omega
    · have hpos : 0 < n := by
        rcases Nat.eq_zero_or_pos n with h0 | h0
        · exact absurd (by simp [h0]) h
        · exact h0
      have hlt : n / 10 < n := Nat.div_lt_self hpos (by norm_num)
      rw [dif_neg h, decodeDigits_append_singleton, ih (n / 10) hlt,
        digitVal_digitChar (n % 10) (Nat.mod_lt _ (by norm_num))]
      omega

theorem natToDigits_injective : Function.Injective natToDigits := by
  intro a b hab
  have := congrArg decodeDigits hab
  simpa [decodeDigits_natToDigits] using this

theorem toDigitsCore_eq_natToDigits :
    ∀ (fuel n : Nat) (ds : List Char), n < fuel →
      Nat.toDigitsCore 10 fuel n ds = natToDigits n ++ ds := by
  intro fuel
  induction fuel with
  | zero => intro n ds h; exact absurd h (Nat.not_lt_zero n)
  | succ f ih =>
    intro n ds h
    rw [Nat.toDigitsCore]
    by_cases h10 : n / 10 = 0
    · simp only [h10, if_pos rfl]
      unfold natToDigits
      rw [dif_pos h10]
      simp
    · have hpos : 0 < n := by
        rcases Nat.eq_zero_or_pos n with h0 | h0
        · exact absurd (by simp [h0]) h10
        · exact h0
      have hlt : n / 10 < n := Nat.div_lt_self hpos (by norm_num)
      have hf : n / 10 < f := Nat.lt_of_lt_of_le hlt (Nat.le_of_lt_succ h)
      simp only [if_neg h10]
      rw [ih (n / 10) (Nat.digitChar (n % 10) :: ds) hf]
      conv_rhs => unfold natToDigits
      rw [dif_neg h10]
      simp

theorem repr_eq_natToDigits (n : Nat) : Nat.repr n = (natToDigits n).asString := by
  unfold Nat.repr Nat.toDigits
  rw [toDigitsCore_eq_natToDigits (n + 1) n [] (Nat.lt_succ_self n), List.append_nil]

theorem natToString_injective : Function.Injective (fun n : Nat => toString n) := by
  intro a b hab
  have h1 : Nat.repr a = Nat.repr b := hab
  rw [repr_eq_natToDigits, repr_eq_natToDigits] at h1
  have h2 : (natToDigits a) = (natToDigits b) := by
    have := congrArg String.data h1
    simpa [List.asString] using this
  exact natToDigits_injective h2

-- ## Teacher exam screen (src/app/management/teachersdashboard/screens/Exam.tsx)

/-- One multiple-choice question record (interface MultipleChoiceOption):
four choices plus a derived string tag naming the correct choice. -/
structure McqOption where
  question : String
  choice1 : String
  choice2 : String
  choice3 : String
  choice4 : String
  correct : String
deriving DecidableEq, Repr

/-- interface QuestionsState: the two string-keyed question maps. -/
structure QuestionsState where
  normalQuestions : List (String × String)
  multiplechoice : List (String × McqOption)
deriving DecidableEq, Repr

/-- interface TestMeta from the source; the class field is the class name
string typed by the teacher. -/
structure TestMeta where
  title : String
  «class» : String
  subject : String
  duration : String
  time : String
deriving DecidableEq, Repr

/-- interface QuizItem: one quiz as returned by the backend. -/
structure QuizItem where
  title : String
  classname : Int
  subject : String
  duration : String
  question : QuestionsState
  _id : String
  createdAt : String
  examId : String
deriving DecidableEq, Repr

/-- The payload assembled by handlePostTest; classname is parseInt of the
class field, hence possibly NaN (none). -/
structure ExamPayload where
  title : String
  classname : Option Int
  subject : String
  duration : String
  question : QuestionsState
  subdomain : String
deriving DecidableEq, Repr

/-- Externally visible effects of the teacher exam screen handlers. -/
inductive ExamAction : Type
  | alert (msg : String)
  | post (payload : ExamPayload)
deriving DecidableEq, Repr

def ExamAction.isPost : ExamAction → Bool
  | .post _ => true
  | _ => false

def ExamAction.isAlert : ExamAction → Bool
  | .alert _ => true
  | _ => false

/-- The component state of TeacherExam touched by the handlers. -/
structure ExamState where
  quizData : List QuizItem
  isCreatingTest : Bool
  step : Nat
  questions : QuestionsState
  testMeta : TestMeta
deriving DecidableEq, Repr

/-- The template literal used for question keys in both add functions. -/
def questionKey (n : Nat) : String := "question" ++ toString n

/-- addNormalQuestion: when the trimmed input is nonempty, insert it under
key question(count+1) where count is the current number of normal
questions; otherwise do nothing. -/
def addNormalQuestion (qs : QuestionsState) (normalQuestion : String) : QuestionsState :=
  if jsTrim normalQuestion ≠ "" then
    let qCount := qs.normalQuestions.length + 1
    { qs with normalQuestions := jsInsert qs.normalQuestions (questionKey qCount) (jsTrim normalQuestion) }
  else qs

/-- The MultipleChoiceOption record built by addMcqQuestion: choices come
from the four option inputs, the correct tag is the template literal
choice(correctIndex+1). -/
def mkMcqOption (mcqQuestion : String) (options : List String) (correctIndex : Nat) : McqOption :=
  { question := jsTrim mcqQuestion
    choice1 := options.getD 0 ""
    choice2 := options.getD 1 ""
    choice3 := options.getD 2 ""
    choice4 := options.getD 3 ""
    correct := "choice" ++ toString (correctIndex + 1) }

/-- addMcqQuestion: when the trimmed question is nonempty, a correct index
is chosen and every option is nonblank, insert the record under key
question(qCount+4) with qCount the current mcq count plus one. -/
def addMcqQuestion (qs : QuestionsState) (mcqQuestion : String) (options : List String)
    (correctIndex : Option Nat) : QuestionsState :=
  match correctIndex with
  | some i =>
    if jsTrim mcqQuestion ≠ "" ∧ options.all (fun o => jsTrim o ≠ "") then
      let qCount := qs.multiplechoice.length + 1
      { qs with multiplechoice :=
          jsInsert qs.multiplechoice (questionKey (qCount + 4)) (mkMcqOption mcqQuestion options i) }
    else qs
  | none => qs

/-- The four preview list entries rendered for one mcq record: the choice
text together with whether that entry is highlighted (correct tag equality
checks from the class names of the four list items). -/
def previewEntries (q : McqOption) : List (String × Bool) :=
  [ (q.choice1, q.correct == "choice1")
  , (q.choice2, q.correct == "choice2")
  , (q.choice3, q.correct == "choice3")
  , (q.choice4, q.correct == "choice4") ]

/-- Zero-based indices of the highlighted entries of the preview list. -/
def highlightedIndices (q : McqOption) : List Nat :=
  ((previewEntries q).enum.filter (fun p => p.2.2)).map Prod.fst

/-- handlePostTest as a state transition: the write result parameterizes
the outcome of the awaited axios post, consulted only when validation
passes.  Returns the new state and the emitted effects in order. -/
def handlePostTest (s : ExamState) (subdomain : String) (writeResult : Except Unit QuizItem) :
    ExamState × List ExamAction :=
  if s.testMeta.title = "" ∨ s.testMeta.«class» = "" ∨ s.testMeta.subject = ""
      ∨ s.testMeta.duration = "" then
    (s, [.alert ("Please fill in all test details.")])
  else if s.questions.normalQuestions.length = 0 ∧ s.questions.multiplechoice.length = 0 then
    (s, [.alert ("Please add at least one question.")])
  else
    let payload : ExamPayload :=
      { title := s.testMeta.title
        classname := jsParseInt s.testMeta.«class»
        subject := s.testMeta.subject
        duration := s.testMeta.duration
        question := s.questions
        subdomain := subdomain }
    match writeResult with
    | .ok resp =>
      ({ quizData := s.quizData ++ [resp]
         isCreatingTest := false
         step := 1
         questions := { normalQuestions := [], multiplechoice := [] }
         testMeta := { title := "", «class» := "", subject := "", duration := "", time := "10:00 AM" } },
       [.post payload])
    | .error _ =>
      (s, [.post payload, .alert ("Failed to post test. Please try again.")])

-- ## Create-meeting screen (src/unnamed/part_001)

structure MeetingSettings where
  join_before_host : Bool
  waiting_room : Bool
deriving DecidableEq, Repr

/-- The meeting draft assembled by the create-meeting form. -/
structure Meeting where
  topic : String
  «type» : Int
  start_time : String
  duration : Int
  timezone : String
  password : String
  settings : MeetingSettings
deriving DecidableEq, Repr

/-- The meeting draft reset to after a successful submit. -/
def defaultMeetingDraft : Meeting :=
  { topic := ""
    «type» := 2
    start_time := ""
    duration := 30
    timezone := "Asia/Kolkata"
    password := ""
    settings := { join_before_host := false, waiting_room := true } }

structure MeetPayload where
  classname : String
  meetingData : Meeting
  subdomain : String
deriving DecidableEq, Repr

inductive MeetAction : Type
  | alert (msg : String)
  | post (payload : MeetPayload)
  | refetchMeetings
deriving DecidableEq, Repr

def MeetAction.isPost : MeetAction → Bool
  | .post _ => true
  | _ => false

def MeetAction.isAlert : MeetAction → Bool
  | .alert _ => true
  | _ => false

/-- The create-meeting form state touched by handleSubmit. -/
structure MeetState where
  meeting : Meeting
  className : String
  startUrl : String
deriving DecidableEq, Repr

/-- handleSubmit of the create-meeting screen: guard on a nonblank class
name, then post; the write result carries the response success flag and
optional start url, or the error message of the catch branch. -/
def handleSubmit (s : MeetState) (subdomain : String)
    (writeResult : Except String (Bool × Option String)) : MeetState × List MeetAction :=
  if jsTrim s.className = "" then
    (s, [.alert ("Class name is required.")])
  else
    let payload : MeetPayload :=
      { classname := jsTrim s.className, meetingData := s.meeting, subdomain := subdomain }
    match writeResult with
    | .ok (true, startUrl) =>
      ({ meeting := defaultMeetingDraft, className := "", startUrl := startUrl.getD "" },
       [.post payload, .alert ("Meeting created successfully!"), .refetchMeetings])
    | .ok (false, _) =>
      (s, [.post payload, .alert ("Meeting creation failed.")])
    | .error msg =>
      (s, [.post payload, .alert ("Something went wrong: " ++ msg)])

-- ## Homework widget (src/app/dashboard/widgets/ExamAndTests.tsx, Homework)

/-- The pieces of Homework component state touched by startHomework. -/
structure HomeworkTimerState where
  activeHomework : List (Nat × Bool)
  countdowns : List (Nat × Int)
deriving DecidableEq, Repr

/-- One firing of the shared one-second interval: every countdown entry
strictly greater than zero is decremented, all others are left as they
are. -/
def tickCountdowns (cd : List (Nat × Int)) : List (Nat × Int) :=
  cd.map (fun p => if p.2 > 0 then (p.1, p.2 - 1) else p)

/-- The per-value effect of one tick. -/
def tickVal (v : Int) : Int := if v > 0 then v - 1 else v

/-- Requests the Homework widget can issue; startHomework issues none. -/
inductive HwRequest : Type
  | updateHwStatus (hwId : Nat)
deriving DecidableEq, Repr

/-- startHomework: seconds is parseInt of the duration string times 60;
when that is NaN the start is aborted with no state change, otherwise the
item is marked active and its countdown set. -/
def startHomework (st : HomeworkTimerState) (hwId : Nat) (durationMinutes : String) :
    HomeworkTimerState × List HwRequest :=
  match jsParseInt durationMinutes with
  | none => (st, [])
  | some n =>
    ({ activeHomework := jsInsert st.activeHomework hwId true
       countdowns := jsInsert st.countdowns hwId (n * 60) }, [])

-- ## Student exam list (src/app/dashboard/widgets/ExamAndTests.tsx, ExamAndTests)

/-- interface ExamItem, the per-exam record of the student screen. -/
structure ExamItem where
  _id : String
  title : String
  classname : Int
  subject : String
  duration : String
  created_at : String
  examId : String
  question : Option QuestionsState
deriving DecidableEq, Repr

/-- The ExamAndTests component state. -/
structure StudentState where
  exams : List ExamItem
  classname : Option String
  loading : Bool
  error : Option String
deriving DecidableEq, Repr

/-- The useState initial values of ExamAndTests. -/
def initialStudentState : StudentState :=
  { exams := [], classname := none, loading := true, error := none }

/-- Network requests the student screen can issue. -/
inductive StudentReq : Type
  | validate (token : String)
  | fetchExams (classname : String) (subdomain : String)
deriving DecidableEq, Repr

/-- The first mount effect (validateToken): with no token in storage the
error is set and loading cleared without any request; with a token the
validate request is issued and its result (ok with the optional classname
found in the response, or the caught error message) drives the state. -/
def validateTokenEffect (s : StudentState) (token : Option String)
    (result : Except String (Option String)) : StudentState × List StudentReq :=
  match token with
  | none =>
    ({ s with error := some ("No token found. Please login."), loading := false }, [])
  | some t =>
    match result with
    | .ok (some cls) =>
      ({ s with classname := some cls, loading := false }, [.validate t])
    | .ok none =>
      ({ s with
          error := some ("User validation failed: Classname not found in validation response.")
          loading := false }, [.validate t])
    | .error msg =>
      ({ s with error := some ("User validation failed: " ++ msg), loading := false },
       [.validate t])

/-- The second mount effect (fetchExams), run after the first: without a
classname it issues nothing, setting the fallback error only when neither
loading nor an error is present; with a classname it fetches and stores
the exams or the fetch error. -/
def fetchExamsEffect (s : StudentState) (subdomain : String)
    (result : Except String (List ExamItem)) : StudentState × List StudentReq :=
  match s.classname with
  | none =>
    (if ¬s.loading ∧ s.error = none then
      { s with error := some ("Class information not available to fetch exams.") }
     else s, [])
  | some cls =>
    match result with
    | .ok items =>
      ({ s with exams := items, loading := false, error := none }, [.fetchExams cls subdomain])
    | .error msg =>
      ({ s with error := some ("Failed to fetch exams: " ++ msg), loading := false },
       [.fetchExams cls subdomain])

/-- What the component renders: the three top-level branches of the JSX. -/
inductive StudentView : Type
  | loadingView
  | errorView
  | examList (exams : List ExamItem)
deriving DecidableEq, Repr

/-- The render logic of ExamAndTests: loading first, then error, then the
exam list. -/
def renderStudent (s : StudentState) : StudentView :=
  if s.loading then .loadingView
  else if s.error.isSome then .errorView
  else .examList s.exams

/-- The mount sequence: validateToken followed by the classname-dependent
fetch effect, with the requests issued in order. -/
def mountStudent (token : Option String) (validateResult : Except String (Option String))
    (fetchResult : Except String (List ExamItem)) (subdomain : String) :
    StudentState × List StudentReq :=
  let r1 := validateTokenEffect initialStudentState token validateResult
  let r2 := fetchExamsEffect r1.1 subdomain fetchResult
  (r2.1, r1.2 ++ r2.2)

-- ## Flashcards widget (src/app/dashboard/widgets/FlashCards.tsx)

/-- A runtime JS value stored in a content-item field. -/
inductive JsVal : Type
  | str (s : String)
  | num (n : Int)
  | boolean (b : Bool)
  | jsNull
deriving DecidableEq, Repr

/-- One element of a deck content array, seen as a JS object: each listed
field is either absent (the key is not on the object) or holds a runtime
value.  The in-operator of the source tests key presence. -/
structure ContentItem where
  question : Option JsVal := none
  answer : Option JsVal := none
  subject : Option JsVal := none
  time : Option JsVal := none
deriving DecidableEq, Repr

/-- typeof x === string on an optional field value. -/
def isStringVal : Option JsVal → Bool
  | some (.str _) => true
  | _ => false

/-- The cardsCount prop: the content filtered by key presence of question
and answer, counted. -/
def cardsCount (content : List ContentItem) : Nat :=
  (content.filter (fun item => item.question.isSome && item.answer.isSome)).length

/-- The qaCards computed in the deck onClick handler: the content filtered
by key presence and additionally typeof checks that both values are
strings (the typeof object and non-null tests of the source hold for
every embedded content item by construction). -/
def qaCards (content : List ContentItem) : List ContentItem :=
  content.filter (fun item =>
    item.question.isSome && isStringVal item.question
      && item.answer.isSome && isStringVal item.answer)

-- ## Helper lemmas

theorem jsInsert_of_not_mem {κ α : Type} [BEq κ] [LawfulBEq κ]
    (m : List (κ × α)) (k : κ) (v : α) (h : k ∉ m.map Prod.fst) :
    jsInsert m k v = m ++ [(k, v)] := by
  unfold jsInsert
  rw [if_neg]
  intro hc
  simp only [List.any_eq_true, beq_iff_eq] at hc
  obtain ⟨p, hp, hpk⟩ := hc
  exact h (List.mem_map.mpr ⟨p, hp, hpk⟩)

-- ## Claim theorems

/-- C4: for every homework item and every duration string that does not
parse as an integer (parseInt yields NaN), startHomework returns without
marking the item active and without modifying the activeHomework or
countdowns state, and issues no write. -/
theorem C4_bad_duration_leaves_state (st : HomeworkTimerState) (hwId : Nat) (d : String)
    (h : jsParseInt d = none) :
    startHomework st hwId d = (st, []) := by
  unfold startHomework
  rw [h]

theorem C4_bad_duration_leaves_state_witness :
    jsParseInt "abc" = none ∧
    startHomework ⟨[(7, false)], [(7, 0)]⟩ 7 "abc" = (⟨[(7, false)], [(7, 0)]⟩, []) :=
  ⟨by decide, C4_bad_duration_leaves_state ⟨[(7, false)], [(7, 0)]⟩ 7 "abc" (by decide)⟩

/-- C7: for every draft state and every failing create-exam write,
handlePostTest surfaces a message and leaves the entire draft unchanged:
the questions map, the test metadata, the step and the isCreatingTest flag
all keep their pre-submit values. -/
theorem C7_failed_post_leaves_draft (s : ExamState) (subdomain : String) :
    ((handlePostTest s subdomain (Except.error ())).1.questions = s.questions) ∧
    ((handlePostTest s subdomain (Except.error ())).1.testMeta = s.testMeta) ∧
    ((handlePostTest s subdomain (Except.error ())).1.step = s.step) ∧
    ((handlePostTest s subdomain (Except.error ())).1.isCreatingTest = s.isCreatingTest) ∧
    ((handlePostTest s subdomain (Except.error ())).2.any (fun a => a.isAlert) = true) := by
  unfold handlePostTest
  split_ifs <;> simp [ExamAction.isAlert]

/-- C8: for the student exam screen, if no session token is present in
browser storage on mount, the screen sets an error and renders the error
state, and no validation or exam-fetch request is issued. -/
theorem C8_no_token_renders_error (vres : Except String (Option String))
    (fres : Except String (List ExamItem)) (subdomain : String) :
    ((mountStudent none vres fres subdomain).2 = []) ∧
    ((mountStudent none vres fres subdomain).1.error.isSome = true) ∧
    (renderStudent (mountStudent none vres fres subdomain).1 = StudentView.errorView) := by
  simp [mountStudent, validateTokenEffect, fetchExamsEffect, initialStudentState, renderStudent]

/-- C6: for every prior list of quizzes and every successful create-exam
response, the resulting visible quiz list equals the prior list with the
response appended as its last element: every existing entry is preserved
in order, no entry is duplicated, and exactly one new entry is added. -/
theorem C6_success_appends_response (s : ExamState) (subdomain : String) (resp : QuizItem)
    (hmeta : ¬(s.testMeta.title = "" ∨ s.testMeta.«class» = "" ∨ s.testMeta.subject = ""
      ∨ s.testMeta.duration = ""))
    (hq : ¬(s.questions.normalQuestions.length = 0 ∧ s.questions.multiplechoice.length = 0)) :
    ((handlePostTest s subdomain (Except.ok resp)).1.quizData = s.quizData ++ [resp]) ∧
    ((handlePostTest s subdomain (Except.ok resp)).1.quizData.length = s.quizData.length + 1) ∧
    (∀ i : Nat, i < s.quizData.length →
      (handlePostTest s subdomain (Except.ok resp)).1.quizData.get? i = s.quizData.get? i) ∧
    ((handlePostTest s subdomain (Except.ok resp)).1.quizData.get? s.quizData.length
      = some resp) := by
  unfold handlePostTest
  rw [if_neg hmeta, if_neg hq]
  refine ⟨rfl, by simp, ?_, ?_⟩
  · intro i hi
    exact List.get?_append hi
  · exact List.get?_concat_length s.quizData resp

/-- A concrete filled-in draft used by the example theorems: one normal
question added and all four test details present. -/
def examStateEx : ExamState :=
  ⟨[], true, 2, ⟨[(questionKey 1, "State one law of motion.")], []⟩,
   ⟨"Unit test", "10", "Physics", "60", "10:00 AM"⟩⟩

/-- A concrete backend response to the create-exam post. -/
def quizRespEx : QuizItem :=
  ⟨"Unit test", 10, "Physics", "60", ⟨[], []⟩, "id1", "2025-07-02", "e1"⟩

theorem C6_success_appends_response_witness :
    (¬(examStateEx.testMeta.title = "" ∨ examStateEx.testMeta.«class» = ""
        ∨ examStateEx.testMeta.subject = "" ∨ examStateEx.testMeta.duration = "")) ∧
    (¬(examStateEx.questions.normalQuestions.length = 0
        ∧ examStateEx.questions.multiplechoice.length = 0)) ∧
    ((handlePostTest examStateEx "demo" (Except.ok quizRespEx)).1.quizData
      = examStateEx.quizData ++ [quizRespEx]) :=
  ⟨by decide, by decide,
   (C6_success_appends_response examStateEx "demo" quizRespEx (by decide) (by decide)).1⟩

/-- C5: for every flashcard deck whose content is one leading details
record (having subject and time but no question or answer fields) followed
by question-and-answer pairs, the displayed cardsCount equals the number
of question-and-answer pairs, i.e. content length minus one. -/
theorem C5_cards_count_excludes_details (d : ContentItem) (qas : List ContentItem)
    (hq : d.question = none) (ha : d.answer = none)
    (hs : d.subject.isSome = true) (ht : d.time.isSome = true)
    (hqa : ∀ it ∈ qas, it.question.isSome = true ∧ it.answer.isSome = true) :
    cardsCount (d :: qas) = (d :: qas).length - 1 := by
  unfold cardsCount
  rw [List.filter_cons_of_neg (by simp [hq]),
    List.filter_eq_self.mpr (fun it hit => by
      simp [(hqa it hit).1, (hqa it hit).2])]
  simp

/-- The leading details record of the biology deck of the static data. -/
def detailsItemEx : ContentItem :=
  ⟨none, none, some (JsVal.str "Biology"), some (JsVal.str "8")⟩

/-- Two question-and-answer records of the biology deck. -/
def qaItemsEx : List ContentItem :=
  [ ⟨some (JsVal.str "What is the basic unit of life?"), some (JsVal.str "Cell"), none, none⟩
  , ⟨some (JsVal.str "What does DNA stand for?"),
      some (JsVal.str "Deoxyribonucleic Acid"), none, none⟩ ]

theorem C5_cards_count_excludes_details_witness :
    (detailsItemEx.question = none) ∧ (detailsItemEx.answer = none) ∧
    (detailsItemEx.subject.isSome = true) ∧ (detailsItemEx.time.isSome = true) ∧
    (∀ it ∈ qaItemsEx, it.question.isSome = true ∧ it.answer.isSome = true) ∧
    cardsCount (detailsItemEx :: qaItemsEx) = (detailsItemEx :: qaItemsEx).length - 1 :=
  ⟨rfl, rfl, rfl, rfl, by decide,
   C5_cards_count_excludes_details detailsItemEx qaItemsEx rfl rfl rfl rfl (by decide)⟩

/-- C1: for every form screen that submits a draft (create-exam
handlePostTest, create-meeting handleSubmit), if any required field of the
draft is missing, the submit operation issues no network write (no POST is
performed) and returns after surfacing a message. -/
theorem C1_missing_required_field_no_write :
    (∀ (s : ExamState) (subdomain : String) (wr : Except Unit QuizItem),
        (s.testMeta.title = "" ∨ s.testMeta.«class» = "" ∨ s.testMeta.subject = ""
          ∨ s.testMeta.duration = "") →
        ((handlePostTest s subdomain wr).2.all (fun a => !a.isPost) = true) ∧
        ((handlePostTest s subdomain wr).2.any (fun a => a.isAlert) = true)) ∧
    (∀ (s : MeetState) (subdomain : String) (wr : Except String (Bool × Option String)),
        jsTrim s.className = "" →
        ((handleSubmit s subdomain wr).2.all (fun a => !a.isPost) = true) ∧
        ((handleSubmit s subdomain wr).2.any (fun a => a.isAlert) = true)) := by
  constructor
  · intro s subdomain wr h
    unfold handlePostTest
    rw [if_pos h]
    simp [ExamAction.isPost, ExamAction.isAlert]
  · intro s subdomain wr h
    unfold handleSubmit
    rw [if_pos h]
    simp [MeetAction.isPost, MeetAction.isAlert]

/-- A draft with the title field left empty. -/
def examStateMissingTitleEx : ExamState :=
  ⟨[], true, 2, ⟨[(questionKey 1, "State one law of motion.")], []⟩,
   ⟨"", "10", "Physics", "60", "10:00 AM"⟩⟩

/-- A meeting form state whose class name is blank. -/
def meetStateBlankEx : MeetState := ⟨defaultMeetingDraft, " ", ""⟩

theorem C1_missing_required_field_no_write_witness :
    (examStateMissingTitleEx.testMeta.title = "") ∧
    ((handlePostTest examStateMissingTitleEx "demo" (Except.ok quizRespEx)).2.all
        (fun a => !a.isPost) = true) ∧
    ((handlePostTest examStateMissingTitleEx "demo" (Except.ok quizRespEx)).2.any
        (fun a => a.isAlert) = true) ∧
    (jsTrim meetStateBlankEx.className = "") ∧
    ((handleSubmit meetStateBlankEx "demo" (Except.error ("network"))).2.all
        (fun a => !a.isPost) = true) ∧
    ((handleSubmit meetStateBlankEx "demo" (Except.error ("network"))).2.any
        (fun a => a.isAlert) = true) := by
  refine ⟨by decide, ?_, ?_, by decide, ?_, ?_⟩
  · exact (C1_missing_required_field_no_write.1 examStateMissingTitleEx "demo"
      (Except.ok quizRespEx) (Or.inl (by decide))).1
  · exact (C1_missing_required_field_no_write.1 examStateMissingTitleEx "demo"
      (Except.ok quizRespEx) (Or.inl (by decide))).2
  · exact (C1_missing_required_field_no_write.2 meetStateBlankEx "demo"
      (Except.error ("network")) (by decide)).1
  · exact (C1_missing_required_field_no_write.2 meetStateBlankEx "demo"
      (Except.error ("network")) (by decide)).2

/-- C2: for every multiple-choice question added with selected option
index i (0-based, i in 0..3), the stored correct tag is the string
choice(i+1), and the preview rendering highlights exactly the option whose
text was at index i: the round trip index to tag to highlighted index
preserves the selection for all four indices. -/
theorem C2_mcq_tag_round_trip (text : String) (options : List String) (i : Nat)
    (h : i < 4) :
    ((mkMcqOption text options i).correct = "choice" ++ toString (i + 1)) ∧
    (highlightedIndices (mkMcqOption text options i) = [i]) ∧
    ((previewEntries (mkMcqOption text options i)).get? i
      = some (options.getD i "", true)) := by
  have e1 : ("choice" ++ toString (1 : Nat)) = "choice1" := by decide
  have e2 : ("choice" ++ toString (2 : Nat)) = "choice2" := by decide
  have e3 : ("choice" ++ toString (3 : Nat)) = "choice3" := by decide
  have e4 : ("choice" ++ toString (4 : Nat)) = "choice4" := by decide
  refine ⟨rfl, ?_, ?_⟩ <;>
    (interval_cases i <;>
      simp [highlightedIndices, previewEntries, mkMcqOption, List.enum, List.enumFrom,
        e1, e2, e3, e4, List.getD])

theorem C2_mcq_tag_round_trip_witness :
    (2 < 4) ∧
    ((mkMcqOption "Pick the noble gas." ["He", "O2", "N2", "H2"] 2).correct
      = "choice" ++ toString (2 + 1)) ∧
    (highlightedIndices (mkMcqOption "Pick the noble gas." ["He", "O2", "N2", "H2"] 2)
      = [2]) ∧
    ((previewEntries (mkMcqOption "Pick the noble gas." ["He", "O2", "N2", "H2"] 2)).get? 2
      = some (["He", "O2", "N2", "H2"].getD 2 "", true)) :=
  ⟨by decide, C2_mcq_tag_round_trip ("Pick the noble gas.") ["He", "O2", "N2", "H2"] 2 (by decide)⟩

-- ## Countdown tick lemmas

theorem tick_entry_eq (p : Nat × Int) :
    (if p.2 > 0 then (p.1, p.2 - 1) else p) = (p.1, tickVal p.2) := by
  unfold tickVal
  split_ifs with h
  · rfl
  · rfl

theorem lookup_tickCountdowns (cd : List (Nat × Int)) (k : Nat) :
    (tickCountdowns cd).lookup k = (List.lookup k cd).map tickVal := by
  induction cd with
  | nil => rfl
  | cons p rest ih =>
    rcases p with ⟨a, v⟩
    unfold tickCountdowns at ih ⊢
    rw [List.map_cons, tick_entry_eq]
    by_cases hak : k == a
    · simp [List.lookup, hak]
    · simp [List.lookup, hak, ih]

theorem tickVal_iter (k N : Nat) : tickVal^[k] ((N : Nat) : Int) = ((N - min k N : Nat) : Int) := by
  induction k generalizing N with
  | zero => simp
  | succ k ih =>
    rw [Function.iterate_succ_apply]
    cases N with
    | zero =>
      have h0 : tickVal ((0 : Nat) : Int) = ((0 : Nat) : Int) := by
        unfold tickVal
        simp
      rw [h0, ih 0]
      simp
    | succ m =>
      have hstep : tickVal (((m + 1 : Nat) : Int)) = ((m : Nat) : Int) := by
        unfold tickVal
        rw [if_pos (by positivity)]
        push_cast
        ring
      rw [hstep, ih m]
      congr 1
      omega

theorem lookup_tick_iterate (cd : List (Nat × Int)) (k : Nat) (n : Nat) :
    (tickCountdowns^[n] cd).lookup k = (List.lookup k cd).map (tickVal^[n]) := by
  induction n generalizing cd with
  | zero => simp
  | succ n ih =>
    rw [Function.iterate_succ_apply, ih (tickCountdowns cd), lookup_tickCountdowns]
    cases List.lookup k cd with
    | none => rfl
    | some v => simp [Function.iterate_succ_apply]

/-- C3: for every homework item whose countdown is started at N seconds
(N at least 0), applying the one-second tick update N times yields a
remaining value of exactly 0, and the remaining value is never negative at
any intermediate state (the tick decrements only entries strictly greater
than zero). -/
theorem C3_countdown_reaches_zero_never_negative (cd : List (Nat × Int)) (hwId : Nat)
    (N : Nat) (h : List.lookup hwId cd = some ((N : Nat) : Int)) :
    ((tickCountdowns^[N] cd).lookup hwId = some 0) ∧
    (∀ k : Nat, ∃ v : Int,
      (tickCountdowns^[k] cd).lookup hwId = some v ∧ 0 ≤ v) := by
  constructor
  · rw [lookup_tick_iterate, h]
    simp [tickVal_iter]
  · intro k
    refine ⟨((N - min k N : Nat) : Int), ?_, by positivity⟩
    rw [lookup_tick_iterate, h]
    simp [tickVal_iter]

theorem C3_countdown_reaches_zero_never_negative_witness :
    (List.lookup 3 [(3, ((5 : Nat) : Int))] = some ((5 : Nat) : Int)) ∧
    ((tickCountdowns^[5] [(3, ((5 : Nat) : Int))]).lookup 3 = some 0) :=
  ⟨by decide,
   (C3_countdown_reaches_zero_never_negative [(3, ((5 : Nat) : Int))] 3 5 (by decide)).1⟩

-- ## Flashcard filter refinement lemmas

theorem qaCards_as_nested_filter (content : List ContentItem) :
    qaCards content
      = List.filter (fun it => isStringVal it.question && isStringVal it.answer)
          (List.filter (fun it => it.question.isSome && it.answer.isSome) content) := by
  unfold qaCards
  rw [List.filter_filter]
  apply List.filter_congr
  intro it _
  cases hq : it.question.isSome <;> cases ha : it.answer.isSome <;>
    cases hsq : isStringVal it.question <;> cases hsa : isStringVal it.answer <;> simp

/-- C9: for every flashcard deck, the displayed cardsCount (key-presence
filter) equals the number of cards passed to the opened deck view
(the stricter filter also requiring string values) exactly when every
content item having both keys has string values in them; a deck containing
an item with both keys but a non-string question or answer shows a count
strictly exceeding the number of cards shown. -/
theorem C9_count_refines_cards (content : List ContentItem) :
    ((qaCards content).length = cardsCount content ↔
      ∀ it ∈ content, it.question.isSome = true → it.answer.isSome = true →
        (isStringVal it.question = true ∧ isStringVal it.answer = true)) ∧
    ((∃ it, it ∈ content ∧ (it.question.isSome = true ∧ it.answer.isSome = true) ∧
        (isStringVal it.question = false ∨ isStringVal it.answer = false)) →
      (qaCards content).length < cardsCount content) := by
  have hif : ∀ (hyp : ∀ it ∈ content, it.question.isSome = true → it.answer.isSome = true →
      (isStringVal it.question = true ∧ isStringVal it.answer = true)),
      (qaCards content).length = cardsCount content := by
    intro hall
    rw [qaCards_as_nested_filter]
    unfold cardsCount
    rw [List.filter_eq_self.mpr]
    intro it hit
    have hm := List.mem_filter.mp hit
    have hpk : it.question.isSome = true ∧ it.answer.isSome = true := by
      simpa using hm.2
    have hs := hall it hm.1 hpk.1 hpk.2
    simp [hs.1, hs.2]
  have honly : (qaCards content).length = cardsCount content →
      ∀ it ∈ content, it.question.isSome = true → it.answer.isSome = true →
        (isStringVal it.question = true ∧ isStringVal it.answer = true) := by
    intro hlen it hmem hq ha
    rw [qaCards_as_nested_filter] at hlen
    unfold cardsCount at hlen
    have hfe := List.Sublist.eq_of_length (List.filter_sublist _) hlen
    have hin : it ∈ List.filter (fun it => it.question.isSome && it.answer.isSome) content :=
      List.mem_filter.mpr ⟨hmem, by simp [hq, ha]⟩
    have := List.filter_eq_self.mp hfe it hin
    simpa using this
  refine ⟨⟨honly, hif⟩, ?_⟩
  rintro ⟨it, hmem, ⟨hq, ha⟩, hbad⟩
  rcases Nat.lt_or_ge (qaCards content).length (cardsCount content) with hlt | hge
  · exact hlt
  · exfalso
    have hle : (qaCards content).length ≤ cardsCount content := by
      rw [qaCards_as_nested_filter]
      unfold cardsCount
      exact List.Sublist.length_le (List.filter_sublist _)
    have heq : (qaCards content).length = cardsCount content := Nat.le_antisymm hle hge
    have := honly heq it hmem hq ha
    rcases hbad with hb | hb
    · rw [this.1] at hb
      exact absurd hb (by simp)
    · rw [this.2] at hb
      exact absurd hb (by simp)

/-- A deck content with a details record, one proper card and one record
whose answer is a number rather than a string. -/
def mixedContentEx : List ContentItem :=
  [ ⟨none, none, some (JsVal.str "Maths"), some (JsVal.str "10")⟩
  , ⟨some (JsVal.str "What is 7 x 8?"), some (JsVal.str "56"), none, none⟩
  , ⟨some (JsVal.str "What is 10 to the power of 0?"), some (JsVal.num 1), none, none⟩ ]

theorem C9_count_refines_cards_witness :
    (∃ it, it ∈ mixedContentEx ∧ (it.question.isSome = true ∧ it.answer.isSome = true) ∧
      (isStringVal it.question = false ∨ isStringVal it.answer = false)) ∧
    (qaCards mixedContentEx).length < cardsCount mixedContentEx :=
  ⟨⟨⟨some (JsVal.str "What is 10 to the power of 0?"), some (JsVal.num 1), none, none⟩,
     by decide, by decide, by decide⟩,
   (C9_count_refines_cards mixedContentEx).2
     ⟨⟨some (JsVal.str "What is 10 to the power of 0?"), some (JsVal.num 1), none, none⟩,
      by decide, by decide, by decide⟩⟩

-- ## Question-key freshness machinery

theorem questionKey_injective : Function.Injective questionKey := by
  intro a b h
  apply natToString_injective
  unfold questionKey at h
  have hd := congrArg String.data h
  simp only [String.data_append] at hd
  exact String.ext (List.append_cancel_left hd)

/-- The keys question(start), ..., question(start+n-1), in order. -/
def keyRange (start n : Nat) : List String :=
  (List.range n).map (fun i => questionKey (start + i))

theorem keyRange_succ (start n : Nat) :
    keyRange start (n + 1) = keyRange start n ++ [questionKey (start + n)] := by
  simp [keyRange, List.range_succ]

theorem questionKey_not_mem_keyRange (start n : Nat) :
    questionKey (start + n) ∉ keyRange start n := by
  intro hmem
  simp only [keyRange, List.mem_map, List.mem_range] at hmem
  obtain ⟨i, hi, he⟩ := hmem
  have := questionKey_injective he
  omega

/-- The states the questions maps can be in, starting from the empty
initial useState value and applying the two add handlers. -/
inductive ReachableQuestions : QuestionsState → Prop
  | start : ReachableQuestions ⟨[], []⟩
  | addNormal (s : QuestionsState) (input : String) :
      ReachableQuestions s → ReachableQuestions (addNormalQuestion s input)
  | addMcq (s : QuestionsState) (q : String) (opts : List String) (ci : Option Nat) :
      ReachableQuestions s → ReachableQuestions (addMcqQuestion s q opts ci)

/-- The key-shape invariant of the two question maps: normal keys are
question1..questionN in order, mcq keys are question5..question(4+M). -/
def questionsKeyInv (s : QuestionsState) : Prop :=
  s.normalQuestions.map Prod.fst = keyRange 1 s.normalQuestions.length ∧
  s.multiplechoice.map Prod.fst = keyRange 5 s.multiplechoice.length

theorem questionsKeyInv_addNormal (s : QuestionsState) (input : String)
    (h : questionsKeyInv s) : questionsKeyInv (addNormalQuestion s input) := by
  unfold addNormalQuestion
  split_ifs with ht
  · have hfresh : questionKey (s.normalQuestions.length + 1)
        ∉ s.normalQuestions.map Prod.fst := by
      rw [h.1]
      have := questionKey_not_mem_keyRange 1 s.normalQuestions.length
      rwa [Nat.add_comm 1 s.normalQuestions.length] at this
    constructor
    · simp only [jsInsert_of_not_mem _ _ _ hfresh, List.map_append, List.length_append,
        List.map_cons, List.map_nil, List.length_cons, List.length_nil]
      rw [h.1, keyRange_succ, Nat.add_comm 1 s.normalQuestions.length]
    · exact h.2
  · exact h

theorem questionsKeyInv_addMcq (s : QuestionsState) (q : String) (opts : List String)
    (ci : Option Nat) (h : questionsKeyInv s) : questionsKeyInv (addMcqQuestion s q opts ci) := by
  unfold addMcqQuestion
  cases ci with
  | none => exact h
  | some i =>
    split_ifs with ht
    · have hkey : s.multiplechoice.length + 1 + 4 = 5 + s.multiplechoice.length := by omega
      have hfresh : questionKey (s.multiplechoice.length + 1 + 4)
          ∉ s.multiplechoice.map Prod.fst := by
        rw [h.2, hkey]
        exact questionKey_not_mem_keyRange 5 s.multiplechoice.length
      constructor
      · exact h.1
      · simp only [jsInsert_of_not_mem _ _ _ hfresh, List.map_append, List.length_append,
          List.map_cons, List.map_nil, List.length_cons, List.length_nil]
        rw [h.2, keyRange_succ, hkey]
    · exact h

theorem reachable_questionsKeyInv (s : QuestionsState) (h : ReachableQuestions s) :
    questionsKeyInv s := by
  induction h with
  | start => constructor <;> rfl
  | addNormal s input _ ih => exact questionsKeyInv_addNormal s input ih
  | addMcq s q opts ci _ ih => exact questionsKeyInv_addMcq s q opts ci ih

/-- C10: for every questions state reachable from the empty state by
addNormalQuestion and addMcqQuestion calls, a successful add (nonblank
question text; for mcq additionally all four options nonblank and a
correct index chosen) inserts under a key not already present in its map
(question(count+1) for normal, question(count+5) for mcq), so the map
gains exactly one entry, every previously stored question is unchanged,
and the other map is untouched. -/
theorem C10_add_inserts_fresh_key (s : QuestionsState) (h : ReachableQuestions s) :
    (∀ input : String, jsTrim input ≠ "" →
      (questionKey (s.normalQuestions.length + 1) ∉ s.normalQuestions.map Prod.fst) ∧
      ((addNormalQuestion s input).normalQuestions
        = s.normalQuestions
            ++ [(questionKey (s.normalQuestions.length + 1), jsTrim input)]) ∧
      ((addNormalQuestion s input).normalQuestions.length
        = s.normalQuestions.length + 1) ∧
      ((addNormalQuestion s input).multiplechoice = s.multiplechoice)) ∧
    (∀ (q : String) (opts : List String) (i : Nat),
        jsTrim q ≠ "" → (opts.all (fun o => jsTrim o ≠ "")) = true →
      (questionKey (s.multiplechoice.length + 1 + 4) ∉ s.multiplechoice.map Prod.fst) ∧
      ((addMcqQuestion s q opts (some i)).multiplechoice
        = s.multiplechoice
            ++ [(questionKey (s.multiplechoice.length + 1 + 4), mkMcqOption q opts i)]) ∧
      ((addMcqQuestion s q opts (some i)).multiplechoice.length
        = s.multiplechoice.length + 1) ∧
      ((addMcqQuestion s q opts (some i)).normalQuestions = s.normalQuestions)) := by
  have hinv := reachable_questionsKeyInv s h
  constructor
  · intro input ht
    have hfresh : questionKey (s.normalQuestions.length + 1)
        ∉ s.normalQuestions.map Prod.fst := by
      rw [hinv.1]
      have := questionKey_not_mem_keyRange 1 s.normalQuestions.length
      rwa [Nat.add_comm 1 s.normalQuestions.length] at this
    refine ⟨hfresh, ?_, ?_, ?_⟩
    · unfold addNormalQuestion
      rw [if_pos ht]
      simp [jsInsert_of_not_mem _ _ _ hfresh]
    · unfold addNormalQuestion
      rw [if_pos ht]
      simp [jsInsert_of_not_mem _ _ _ hfresh]
    · unfold addNormalQuestion
      rw [if_pos ht]
  · intro q opts i htq hall
    have hkey : s.multiplechoice.length + 1 + 4 = 5 + s.multiplechoice.length := by omega
    have hfresh : questionKey (s.multiplechoice.length + 1 + 4)
        ∉ s.multiplechoice.map Prod.fst := by
      rw [hinv.2, hkey]
      exact questionKey_not_mem_keyRange 5 s.multiplechoice.length
    refine ⟨hfresh, ?_, ?_, ?_⟩
    · simp only [addMcqQuestion]
      rw [if_pos ⟨htq, hall⟩]
      simp [jsInsert_of_not_mem _ _ _ hfresh]
    · simp only [addMcqQuestion]
      rw [if_pos ⟨htq, hall⟩]
      simp [jsInsert_of_not_mem _ _ _ hfresh]
    · simp only [addMcqQuestion]
      rw [if_pos ⟨htq, hall⟩]

theorem C10_add_inserts_fresh_key_witness :
    ReachableQuestions ⟨[], []⟩ ∧
    jsTrim ("Define inertia.") ≠ "" ∧
    jsTrim ("Pick one.") ≠ "" ∧
    ((["a", "b", "c", "d"].all (fun o => jsTrim o ≠ "")) = true) ∧
    (questionKey ((⟨[], []⟩ : QuestionsState).normalQuestions.length + 1)
      ∉ (⟨[], []⟩ : QuestionsState).normalQuestions.map Prod.fst) ∧
    ((addNormalQuestion ⟨[], []⟩ ("Define inertia.")).normalQuestions
      = (⟨[], []⟩ : QuestionsState).normalQuestions
          ++ [(questionKey ((⟨[], []⟩ : QuestionsState).normalQuestions.length + 1),
                jsTrim ("Define inertia."))]) ∧
    ((addMcqQuestion ⟨[], []⟩ ("Pick one.") ["a", "b", "c", "d"] (some 1)).multiplechoice.length
      = (⟨[], []⟩ : QuestionsState).multiplechoice.length + 1) :=
  ⟨.start, by decide, by decide, by decide,
   ((C10_add_inserts_fresh_key ⟨[], []⟩ .start).1 ("Define inertia.") (by decide)).1,
   ((C10_add_inserts_fresh_key ⟨[], []⟩ .start).1 ("Define inertia.") (by decide)).2.1,
   (((C10_add_inserts_fresh_key ⟨[], []⟩ .start).2 ("Pick one.") ["a", "b", "c", "d"] 1
      (by decide) (by decide)).2).2.1⟩
